import Mathlib

/-!
Shallow embedding of the `query_tool_statuspage` status-report tool
(package `status_report`: `data_models.py`, `report_aggregator.py`,
`http_client.py`, `tool.py`, `report_writer.py`, `config.py`) and proofs
about the claims of its specification.

Modelling conventions:
* Python `int` is unbounded, embedded as `Int`; Python `float` is embedded
  as `Rat` (values appearing in the program are decimal payload fields and
  a single division; exact rationals model them faithfully up to rounding).
* JSON values decoded by Python's `json` module are embedded as `JValue`
  (strings, integers, non-integer numbers, booleans, null, with nesting
  elided because the payload fields of interest are flat).
* Exceptions become `Except PyExc`; each Python exception class the program
  can raise or catch is one constructor of `PyExc`.
* I/O (HTTP transport, file reads, printing) is cut at its boundary: the
  outcome of a fetch is a parameter (`HttpOutcome`), a file is its list of
  lines, printing is dropped.
-/

set_option linter.unusedVariables false

namespace StatusPage

/-- A decoded JSON scalar value, as produced by Python's `json` module:
strings, Python ints (JSON integers), Python floats (JSON numbers with a
fractional part, embedded as exact rationals), booleans and null. -/
inductive JValue where
  | str : String → JValue
  | int : Int → JValue
  | num : Rat → JValue
  | bool : Bool → JValue
  | null : JValue
deriving DecidableEq, Repr

/-- The Python exception classes the embedded code can raise or catch. -/
inductive PyExc where
  | keyError : String → PyExc
  | valueError : String → PyExc
  | typeError : PyExc
  | clientConnectionError : PyExc
  | clientResponseError : Nat → PyExc
  | contentTypeError : PyExc
deriving DecidableEq, Repr

/-- Characters stripped by Python's `str.strip()` (ASCII whitespace;
the further Unicode whitespace Python also strips never occurs here). -/
def isPySpace (c : Char) : Bool :=
  c = ' ' || c = '\t' || c = '\n' || c = '\x0d' || c = '\x0b' || c = '\x0c'

/-- Python `str.strip()`: remove leading and trailing whitespace. -/
def pyStrip (s : String) : String :=
  String.mk (((s.toList.dropWhile isPySpace).reverse.dropWhile isPySpace).reverse)

/-- Digit list to the natural number it denotes (most significant first). -/
def digitsToNat (cs : List Char) : Nat :=
  cs.foldl (fun acc c => acc * 10 + (c.toNat - '0'.toNat)) 0

/-- Python `int(string)`: strip whitespace, optional sign, then decimal
digits; anything else (for example a decimal point) fails. Underscore
digit separators and non-ASCII digits are not modelled (unused here). -/
def parsePyIntStr (s : String) : Option Int :=
  let t := (pyStrip s).toList
  let signAndDigits : Int × List Char :=
    match t with
    | '-' :: rest => (-1, rest)
    | '+' :: rest => (1, rest)
    | rest => (1, rest)
  let digits := signAndDigits.2
  if digits ≠ [] && digits.all Char.isDigit then
    some (signAndDigits.1 * (digitsToNat digits : Int))
  else
    none

/-- Python `float(string)`: strip whitespace, optional sign, decimal
digits with an optional fractional part. Exponents, `inf` and `nan`
are not modelled (the payloads of this program never use them). -/
def parsePyFloatStr (s : String) : Option Rat :=
  let t := (pyStrip s).toList
  let signAndBody : Rat × List Char :=
    match t with
    | '-' :: rest => (-1, rest)
    | '+' :: rest => (1, rest)
    | rest => (1, rest)
  let body := signAndBody.2
  let intPart := body.takeWhile Char.isDigit
  let rest := body.dropWhile Char.isDigit
  match rest with
  | [] =>
      if intPart ≠ [] then some (signAndBody.1 * (digitsToNat intPart : Rat))
      else none
  | '.' :: frac =>
      if (intPart ≠ [] || frac ≠ []) && frac.all Char.isDigit then
        some (signAndBody.1 *
          ((digitsToNat intPart : Rat) +
            (digitsToNat frac : Rat) / ((10 : Rat) ^ frac.length)))
      else none
  | _ => none

/-- Truncation toward zero, the behaviour of Python `int(float)`. -/
def ratTrunc (q : Rat) : Int :=
  if 0 ≤ q then ⌊q⌋ else -⌊-q⌋

/-- Python's `repr` of a string as it appears in exception messages
(quote escaping elided: no payload of interest contains a quote). -/
def pyRepr (s : String) : String := "'" ++ s ++ "'"

/-- Python `int(x)` on a decoded JSON value: ints pass through, floats
truncate toward zero, booleans coerce to 0/1, strings are parsed
(`ValueError` on failure), `None` raises `TypeError`. -/
def pyInt : JValue → Except PyExc Int
  | .int n => .ok n
  | .num q => .ok (ratTrunc q)
  | .bool b => .ok (if b then 1 else 0)
  | .str s =>
      match parsePyIntStr s with
      | some n => .ok n
      | none => .error (.valueError
          ("invalid literal for int() with base 10: " ++ pyRepr s))
  | .null => .error .typeError

/-- Python `float(x)` on a decoded JSON value. -/
def pyFloat : JValue → Except PyExc Rat
  | .int n => .ok (n : Rat)
  | .num q => .ok q
  | .bool b => .ok (if b then 1 else 0)
  | .str s =>
      match parsePyFloatStr s with
      | some q => .ok q
      | none => .error (.valueError
          ("could not convert string to float: " ++ pyRepr s))
  | .null => .error .typeError

/-- A decoded JSON object (Python dict): association list of fields.
`json.loads` keeps the last occurrence of a duplicated key, so lookup
scans from the right. -/
abbrev JObject := List (String × JValue)

/-- Python `data[key]` on a dict decoded from JSON: the value of the last
occurrence of the key, `KeyError` if absent. -/
def getItem (data : JObject) (key : String) : Except PyExc JValue :=
  match data.reverse.find? (fun kv => kv.1 = key) with
  | some kv => .ok kv.2
  | none => .error (.keyError key)

end StatusPage

namespace StatusPage

/-- `status_report.data_models.StatusData`: the parsed `/status` payload.
The Python constructor performs no type checks, so `application` and
`version` hold whatever JSON value the payload supplied. -/
structure StatusData where
  application : JValue
  version : JValue
  uptime : Rat
  request_count : Int
  error_count : Int
  success_count : Int
deriving DecidableEq, Repr

/-- The body of `StatusData.from_json` before its `except` clause:
subscript and coerce each field in the source's evaluation order,
propagating the first exception raised. -/
def parseStatusData (data : JObject) : Except PyExc StatusData :=
  match getItem data "Application" with
  | .error e => .error e
  | .ok app =>
  match getItem data "Version" with
  | .error e => .error e
  | .ok ver =>
  match getItem data "Uptime" with
  | .error e => .error e
  | .ok vu =>
  match pyFloat vu with
  | .error e => .error e
  | .ok up =>
  match getItem data "Request_Count" with
  | .error e => .error e
  | .ok vr =>
  match pyInt vr with
  | .error e => .error e
  | .ok req =>
  match getItem data "Error_Count" with
  | .error e => .error e
  | .ok ve =>
  match pyInt ve with
  | .error e => .error e
  | .ok err =>
  match getItem data "Success_Count" with
  | .error e => .error e
  | .ok vs =>
  match pyInt vs with
  | .error e => .error e
  | .ok succ => .ok ⟨app, ver, up, req, err, succ⟩

/-- Python `str(e)` for the exceptions `from_json` can catch. -/
def excMessage : PyExc → String
  | .keyError k => pyRepr k
  | .valueError m => m
  | _ => ""

/-- The `except (KeyError, ValueError)` clause of `from_json`: wrap those
two classes into a new `ValueError`; any other class propagates. -/
def wrapParseExc : PyExc → PyExc
  | .keyError k => .valueError ("Invalid status JSON structure: " ++ excMessage (.keyError k))
  | .valueError m => .valueError ("Invalid status JSON structure: " ++ excMessage (.valueError m))
  | e => e

/-- `StatusData.from_json` from `status_report/data_models.py`. -/
def StatusData.from_json (data : JObject) : Except PyExc StatusData :=
  (parseStatusData data).mapError wrapParseExc

end StatusPage

namespace StatusPage

/-- Grouping key of the aggregator: the `(application, version)` pair. -/
abbrev AggKey := JValue × JValue

/-- The aggregator's `_agg_data` dict, keyed by `(application, version)`
with value `(total_success, total_requests)`. A Python dict preserves
insertion order and updates an existing key in place, so it is embedded
as an association list with unique keys in insertion order. -/
abbrev AggState := List (AggKey × (Int × Int))

/-- `_agg_data[key] = (existing[0] + succ, existing[1] + req)` on the
insertion-ordered dict: an existing key keeps its position and has the
deltas added, a new key is appended with bucket `(0 + succ, 0 + req)`. -/
def storeBucket (key : AggKey) (succ req : Int) : AggState → AggState
  | [] => [(key, (succ, req))]
  | (k, v) :: rest =>
      if k = key then (k, (v.1 + succ, v.2 + req)) :: rest
      else (k, v) :: storeBucket key succ req rest

/-- `ReportAggregator.add_status`: fetch the bucket for the record's key
(defaulting to `(0, 0)`), add the record's `success_count` and
`request_count`, store the bucket back. -/
def addStatus (st : AggState) (status : StatusData) : AggState :=
  storeBucket (status.application, status.version)
    status.success_count status.request_count st

/-- A fresh `ReportAggregator`: empty dict. -/
def emptyAgg : AggState := []

/-- Ingest a list of records into a fresh aggregator, in list order. -/
def aggregate (records : List StatusData) : AggState :=
  records.foldl addStatus emptyAgg

/-- One entry of the list returned by `ReportAggregator.get_results`. -/
structure ResultEntry where
  application : JValue
  version : JValue
  total_requests : Int
  total_success : Int
  success_rate : Rat
deriving DecidableEq, Repr

/-- `ReportAggregator.get_results`: one entry per bucket, in dict
(insertion) order; `success_rate = succ / req` when `req > 0` and `0.0`
otherwise. (Python float division is embedded as exact `Rat` division.) -/
def getResults (st : AggState) : List ResultEntry :=
  st.map (fun b =>
    { application := b.1.1
      version := b.1.2
      total_requests := b.2.2
      total_success := b.2.1
      success_rate := if b.2.2 > (0 : Int) then (b.2.1 : Rat) / (b.2.2 : Rat) else 0 })

/-- The bucket stored for a key, as `add_status` reads it:
`_agg_data.get(key, (0, 0))`. -/
def bucketOf (st : AggState) (key : AggKey) : Int × Int :=
  match st.find? (fun b => b.1 = key) with
  | some b => b.2
  | none => (0, 0)

/-- The grouping key of one record. -/
def keyOf (s : StatusData) : AggKey := (s.application, s.version)

/-- Sum of the `success_count` fields of a list of records. -/
def sumSuccess (recs : List StatusData) : Int :=
  (recs.map (fun r => r.success_count)).sum

/-- Sum of the `request_count` fields of a list of records. -/
def sumRequests (recs : List StatusData) : Int :=
  (recs.map (fun r => r.request_count)).sum

end StatusPage

namespace StatusPage

/-- The body of an HTTP response as `resp.json()` sees it: either a JSON
object, or undecodable content (raising aiohttp's content/decode error). -/
inductive BodyResult where
  | json : JObject → BodyResult
  | malformed : BodyResult
deriving DecidableEq, Repr

/-- The outcome of one HTTP GET, at the transport boundary: a transport
error (connection failure or timeout, raised as an aiohttp client error),
or a response with a status code and a body. -/
inductive HttpOutcome where
  | transportError : HttpOutcome
  | response : Nat → BodyResult → HttpOutcome
deriving DecidableEq, Repr

/-- `ServerStatusClient.fetch_status` from `status_report/http_client.py`,
as a function of the transport outcome for the given server. A transport
failure raises the client connection error; `resp.raise_for_status()`
raises for status codes ≥ 400; an undecodable body raises the decode
error; otherwise the body is parsed by `StatusData.from_json`. The
`except` clause logs a warning naming the server and re-raises the
original exception unchanged. -/
def fetchStatus (server : String) (outcome : HttpOutcome) : Except PyExc StatusData :=
  match outcome with
  | .transportError => .error .clientConnectionError
  | .response status body =>
      if 400 ≤ status then .error (.clientResponseError status)
      else
        match body with
        | .malformed => .error .contentTypeError
        | .json data => StatusData.from_json data

/-- The terminal outcome of one endpoint inside `StatusTool.run`:
its record was ingested, or its failure was logged (with the server
name and the caught exception). -/
inductive RunOutcome where
  | ingested : String → RunOutcome
  | logged : String → PyExc → RunOutcome
deriving DecidableEq, Repr

/-- `StatusTool._fetch_and_aggregate`: fetch one server's status and add
it to the aggregator; any exception is caught and logged, never
re-raised — the function always returns. -/
def fetchAndAggregate (server : String) (outcome : HttpOutcome) (st : AggState) :
    AggState × RunOutcome :=
  match fetchStatus server outcome with
  | .ok status => (addStatus st status, .ingested server)
  | .error e => (st, .logged server e)

/-- The fetch-and-aggregate phase of `StatusTool.run` over a list of
endpoints, each with its transport outcome: every endpoint is processed
(`asyncio.gather` with `return_exceptions=True` joins all tasks), the
aggregator accumulates across them, and one terminal outcome is recorded
per endpoint. Ingestion order is the list order here; order-independence
of the totals is separately proved of `add_status`. -/
def runSteps (st : AggState) : List (String × HttpOutcome) → AggState × List RunOutcome
  | [] => (st, [])
  | (server, oc) :: rest =>
      let step := fetchAndAggregate server oc st
      let next := runSteps step.1 rest
      (next.1, step.2 :: next.2)

/-- `StatusTool.run` from the aggregator's point of view: process every
endpoint from a fresh aggregator and return the final state with the
per-endpoint outcomes. -/
def runTool (endpoints : List (String × HttpOutcome)) : AggState × List RunOutcome :=
  runSteps emptyAgg endpoints

/-- The records of the endpoints whose fetch succeeded, in list order. -/
def successRecords (endpoints : List (String × HttpOutcome)) : List StatusData :=
  endpoints.filterMap (fun e => (fetchStatus e.1 e.2).toOption)

/-- `StatusTool._read_servers`, over the file's lines: strip each line,
skip it when empty or starting with `#`, keep the rest in order. -/
def readServers : List String → List String
  | [] => []
  | line :: rest =>
      let l := pyStrip line
      if l = "" || l.startsWith "#" then readServers rest
      else l :: readServers rest

/-- The endpoint-list loader as the specification words it: exactly the
lines that are non-blank after trimming and do not begin with `#` after
trimming, each trimmed, in input order. Stated from the spec, to be
compared with `readServers` (which is stated from the source). -/
def readServersSpec (lines : List String) : List String :=
  (lines.map pyStrip).filter (fun l => !(l = "" || l.startsWith "#"))

end StatusPage

namespace StatusPage

/-- `Config.MAX_CONCURRENCY` from `status_report/config.py`:
`int(os.getenv("MAX_CONCURRENCY", "50"))` — a bare `int()` coercion of
the environment value (default `"50"`), with no further validation. -/
def maxConcurrency (env : Option String) : Except PyExc Int :=
  match parsePyIntStr (env.getD "50") with
  | some n => .ok n
  | none => .error (.valueError
      ("invalid literal for int() with base 10: " ++ pyRepr (env.getD "50")))

end StatusPage

namespace StatusPage

/-- A value stored in one of the result dicts handed to the writer:
a scalar (application/version strings, counts, rate) or the nested
`{"self": url}` links dict, represented by its url. -/
inductive PyVal where
  | prim : JValue → PyVal
  | rate : Rat → PyVal
  | links : String → PyVal
deriving DecidableEq, Repr

/-- A Python dict object with string keys, as the writer sees it. -/
abbrev PyDict := List (String × PyVal)

/-- The heap of dict objects; a list index is an object reference. -/
abbrev Store := List PyDict

/-- Python `d[k] = v` on a dict with unique keys: replace the value in
place when the key exists, append the pair otherwise. -/
def pySetItem : PyDict → String → PyVal → PyDict
  | [], k, v => [(k, v)]
  | (k', v') :: rest, k, v =>
      if k' = k then (k, v) :: rest else (k', v') :: pySetItem rest k v

/-- Python `str()` as used inside the writer's f-string (only string
values occur for `application`/`version` in practice; numeric rendering
is by `toString`). -/
def pyStr : PyVal → String
  | .prim (.str s) => s
  | .prim (.int n) => toString n
  | .prim (.num q) => toString q
  | .prim (.bool b) => if b then "True" else "False"
  | .prim .null => "None"
  | .rate q => toString q
  | .links u => u

/-- The value of `item[k]` rendered by the f-string (a missing key would
raise `KeyError`; it never occurs for dicts produced by `get_results`). -/
def entryStr (item : PyDict) (k : String) : String :=
  match item.find? (fun kv => kv.1 = k) with
  | some kv => pyStr kv.2
  | none => ""

/-- The HATEOAS locator built by `ReportWriter.write`:
`f"/apps/{item['application']}/{item['version']}/info"`. -/
def linkUrl (item : PyDict) : String :=
  "/apps/" ++ entryStr item "application" ++ "/" ++ entryStr item "version" ++ "/info"

/-- The JSON-artifact half of `ReportWriter.write` over the heap of dict
objects: for each result reference in order, take a shallow copy of the
dict (`dict(item)` allocates a fresh object with the same entries), set
`"links"` on the copy, and collect the fresh references in
`data_with_links`. Returns the final heap and the fresh references. -/
def writeJsonData (store : Store) : List Nat → Store × List Nat
  | [] => (store, [])
  | r :: rs =>
      let item := store.getD r []
      let withLinks := pySetItem item "links" (.links (linkUrl item))
      let next := writeJsonData (store ++ [withLinks]) rs
      (next.1, store.length :: next.2)

end StatusPage

namespace StatusPage

theorem bucketOf_nil (key : AggKey) : bucketOf [] key = (0, 0) := rfl

theorem bucketOf_cons (k : AggKey) (v : Int × Int) (rest : AggState) (key : AggKey) :
    bucketOf ((k, v) :: rest) key = if k = key then v else bucketOf rest key := by
  by_cases h : k = key <;> simp [bucketOf, List.find?, h]

theorem bucketOf_storeBucket (key : AggKey) (succ req : Int) (st : AggState) (k : AggKey) :
    bucketOf (storeBucket key succ req st) k =
      if key = k then ((bucketOf st k).1 + succ, (bucketOf st k).2 + req)
      else bucketOf st k := by
  induction st with
  | nil =>
      by_cases h : key = k <;> simp [storeBucket, bucketOf_cons, bucketOf_nil, h]
  | cons b rest ih =>
      obtain ⟨k', v⟩ := b
      by_cases h1 : k' = key
      · subst h1
        by_cases h2 : k' = k
        · subst h2
          simp [storeBucket, bucketOf_cons]
        · simp [storeBucket, bucketOf_cons, h2]
      · by_cases h2 : k' = k
        · subst h2
          have hkk : ¬ key = k' := fun h => h1 h.symm
          simp [storeBucket, bucketOf_cons, h1, hkk]
        · simp [storeBucket, bucketOf_cons, h1, h2, ih]

theorem bucketOf_addStatus (st : AggState) (s : StatusData) (k : AggKey) :
    bucketOf (addStatus st s) k =
      if keyOf s = k
      then ((bucketOf st k).1 + s.success_count, (bucketOf st k).2 + s.request_count)
      else bucketOf st k := by
  simpa [addStatus, keyOf] using bucketOf_storeBucket (keyOf s) s.success_count s.request_count st k

theorem bucketOf_foldl (recs : List StatusData) (st : AggState) (k : AggKey) :
    bucketOf (recs.foldl addStatus st) k =
      ((bucketOf st k).1 + sumSuccess (recs.filter (fun r => keyOf r = k)),
       (bucketOf st k).2 + sumRequests (recs.filter (fun r => keyOf r = k))) := by
  induction recs generalizing st with
  | nil => simp [sumSuccess, sumRequests]
  | cons r rest ih =>
      by_cases h : keyOf r = k
      · simp only [List.foldl_cons, ih (addStatus st r), bucketOf_addStatus, h, if_pos,
          List.filter_cons, sumSuccess, sumRequests]
        simp [h, sumSuccess, sumRequests]
        constructor <;> ring
      · simp only [List.foldl_cons, ih (addStatus st r), bucketOf_addStatus, h, if_neg,
          List.filter_cons]
        simp [h]

end StatusPage

namespace StatusPage

/-- C1: for every finite multiset of `StatusData` records ingested via
`ReportAggregator.add_status`, the bucket stored for each key
`(application, version)` has `totalSuccess` equal to the sum of the
matching records' `success_count` fields and `totalRequests` equal to
the sum of their `request_count` fields; and the totals are the same
for every ingestion order (the effect of `add_status` on each bucket is
commutative). -/
theorem addStatus_bucket_totals_and_order_independent :
    (∀ (recs : List StatusData) (k : AggKey),
      bucketOf (aggregate recs) k =
        (sumSuccess (recs.filter (fun r => keyOf r = k)),
         sumRequests (recs.filter (fun r => keyOf r = k)))) ∧
    (∀ (recs recs' : List StatusData), recs.Perm recs' →
      ∀ k : AggKey, bucketOf (aggregate recs) k = bucketOf (aggregate recs') k) := by
  have htot : ∀ (recs : List StatusData) (k : AggKey),
      bucketOf (aggregate recs) k =
        (sumSuccess (recs.filter (fun r => keyOf r = k)),
         sumRequests (recs.filter (fun r => keyOf r = k))) := by
    intro recs k
    simpa [aggregate, emptyAgg, bucketOf_nil] using bucketOf_foldl recs [] k
  refine ⟨htot, ?_⟩
  intro recs recs' hperm k
  rw [htot, htot]
  have hfil : (recs.filter (fun r => keyOf r = k)).Perm
      (recs'.filter (fun r => keyOf r = k)) := hperm.filter _
  have hsucc : sumSuccess (recs.filter (fun r => keyOf r = k)) =
      sumSuccess (recs'.filter (fun r => keyOf r = k)) := by
    unfold sumSuccess
    exact (hfil.map _).sum_eq
  have hreq : sumRequests (recs.filter (fun r => keyOf r = k)) =
      sumRequests (recs'.filter (fun r => keyOf r = k)) := by
    unfold sumRequests
    exact (hfil.map _).sum_eq
  rw [hsucc, hreq]

/-- Witness for C1: the two test records of `test_aggregator_basic`
ingested in both orders give the bucket `(23, 30)` for `(App1, 1.0)`. -/
theorem addStatus_bucket_totals_witness :
    bucketOf (aggregate
        [⟨JValue.str "App1", JValue.str "1.0", 100, 10, 2, 8⟩,
         ⟨JValue.str "App1", JValue.str "1.0", 150, 20, 5, 15⟩])
      (JValue.str "App1", JValue.str "1.0") = (23, 30) ∧
    bucketOf (aggregate
        [⟨JValue.str "App1", JValue.str "1.0", 100, 10, 2, 8⟩,
         ⟨JValue.str "App1", JValue.str "1.0", 150, 20, 5, 15⟩])
      (JValue.str "App1", JValue.str "1.0") =
    bucketOf (aggregate
        [⟨JValue.str "App1", JValue.str "1.0", 150, 20, 5, 15⟩,
         ⟨JValue.str "App1", JValue.str "1.0", 100, 10, 2, 8⟩])
      (JValue.str "App1", JValue.str "1.0") := by
  constructor
  · rw [addStatus_bucket_totals_and_order_independent.1]
    decide
  · exact addStatus_bucket_totals_and_order_independent.2 _ _
      (List.Perm.swap _ _ _) _

end StatusPage

namespace StatusPage

/-- C2: `ReportAggregator.get_results` produces one result entry for
every bucket — a bucket with `totalRequests = 0` is present in the
output with `success_rate` exactly `0.0`, never an error and never
excluded. (`get_results` is a total function: the `req > 0` guard means
no division by zero is ever attempted.) -/
theorem getResults_includes_zero_request_buckets (st : AggState) :
    (getResults st).length = st.length ∧
    (∀ e ∈ getResults st, e.total_requests = 0 → e.success_rate = 0) ∧
    (∀ b ∈ st, ∃ e ∈ getResults st,
      e.application = b.1.1 ∧ e.version = b.1.2 ∧
      e.total_requests = b.2.2 ∧ e.total_success = b.2.1 ∧
      (b.2.2 = 0 → e.success_rate = 0)) := by
  refine ⟨by simp [getResults], ?_, ?_⟩
  · intro e he h0
    simp only [getResults, List.mem_map] at he
    obtain ⟨b, hb, rfl⟩ := he
    simp only at h0 ⊢
    simp [h0]
  · intro b hb
    refine ⟨_, List.mem_map_of_mem _ hb, rfl, rfl, rfl, rfl, ?_⟩
    intro h0
    simp [h0]

/-- Witness for C2: a state whose single bucket has zero requests still
yields its entry, with `success_rate = 0`. -/
theorem getResults_includes_zero_request_buckets_witness :
    (getResults [((JValue.str "App1", JValue.str "1.0"), ((0 : Int), (0 : Int)))]).length = 1 ∧
    (∃ e ∈ getResults [((JValue.str "App1", JValue.str "1.0"), ((0 : Int), (0 : Int)))],
      e.application = JValue.str "App1" ∧ e.version = JValue.str "1.0" ∧
      e.total_requests = 0 ∧ e.total_success = 0 ∧ e.success_rate = 0) := by
  have h := getResults_includes_zero_request_buckets
    [((JValue.str "App1", JValue.str "1.0"), ((0 : Int), (0 : Int)))]
  refine ⟨h.1, ?_⟩
  obtain ⟨e, he, h1, h2, h3, h4, h5⟩ :=
    h.2.2 ((JValue.str "App1", JValue.str "1.0"), ((0 : Int), (0 : Int))) (by simp)
  exact ⟨e, he, h1, h2, h3, h4, h5 rfl⟩

end StatusPage

namespace StatusPage

/-- A bucket with non-negative success total bounded by its request
total. -/
def BucketOk (b : AggKey × (Int × Int)) : Prop :=
  0 ≤ b.2.1 ∧ b.2.1 ≤ b.2.2

theorem storeBucket_bucketOk (key : AggKey) (succ req : Int)
    (hs : 0 ≤ succ) (hsr : succ ≤ req) :
    ∀ st : AggState, (∀ b ∈ st, BucketOk b) →
      ∀ b ∈ storeBucket key succ req st, BucketOk b := by
  intro st
  induction st with
  | nil =>
      intro _ b hb
      simp only [storeBucket, List.mem_singleton] at hb
      subst hb
      exact ⟨hs, hsr⟩
  | cons hd rest ih =>
      obtain ⟨k, v⟩ := hd
      intro hinv b hb
      by_cases hk : k = key
      · simp only [storeBucket, hk, if_pos] at hb
        rcases List.mem_cons.mp hb with h | h
        · subst h
          have hv : BucketOk (k, v) := hinv _ (List.mem_cons_self _ _)
          exact ⟨add_nonneg hv.1 hs, add_le_add hv.2 hsr⟩
        · exact hinv _ (List.mem_cons_of_mem _ h)
      · simp only [storeBucket, hk, if_neg, not_false_iff] at hb
        rcases List.mem_cons.mp hb with h | h
        · subst h
          exact hinv _ (List.mem_cons_self _ _)
        · exact ih (fun b hb => hinv _ (List.mem_cons_of_mem _ hb)) b h

theorem foldl_addStatus_bucketOk (recs : List StatusData) :
    (∀ r ∈ recs, 0 ≤ r.success_count ∧ r.success_count ≤ r.request_count) →
    ∀ st : AggState, (∀ b ∈ st, BucketOk b) →
      ∀ b ∈ recs.foldl addStatus st, BucketOk b := by
  induction recs with
  | nil => intro _ st hinv b hb; exact hinv b hb
  | cons r rest ih =>
      intro hrec st hinv
      have hr := hrec r (List.mem_cons_self _ _)
      exact ih (fun x hx => hrec x (List.mem_cons_of_mem _ hx)) (addStatus st r)
        (storeBucket_bucketOk _ _ _ hr.1 hr.2 st hinv)

/-- C6: when every ingested record satisfies
`0 ≤ success_count ≤ request_count`, every entry of `get_results` has
`success_rate` in `[0, 1]`, and the rate is exactly `0.0` whenever the
entry's `total_requests` is `0`. -/
theorem getResults_rate_in_unit_interval (recs : List StatusData)
    (hrec : ∀ r ∈ recs, 0 ≤ r.success_count ∧ r.success_count ≤ r.request_count) :
    ∀ e ∈ getResults (aggregate recs),
      0 ≤ e.success_rate ∧ e.success_rate ≤ 1 ∧
      (e.total_requests = 0 → e.success_rate = 0) := by
  intro e he
  simp only [getResults, List.mem_map] at he
  obtain ⟨b, hb, rfl⟩ := he
  have hok : BucketOk b :=
    foldl_addStatus_bucketOk recs hrec emptyAgg (by simp [emptyAgg]) b hb
  obtain ⟨hs, hsr⟩ := hok
  by_cases hreq : b.2.2 > (0 : Int)
  · have hcast : (0 : Rat) < (b.2.2 : Rat) := by exact_mod_cast hreq
    refine ⟨?_, ?_, ?_⟩
    · simp only [hreq, if_pos]
      exact div_nonneg (by exact_mod_cast hs) (le_of_lt hcast)
    · simp only [hreq, if_pos]
      exact (div_le_one hcast).mpr (by exact_mod_cast hsr)
    · intro h0
      simp only at h0
      omega
  · refine ⟨?_, ?_, fun _ => ?_⟩ <;> simp [hreq]

/-- Witness for C6: two well-formed records for one key give the entry
with rate `23/30 ∈ [0, 1]`. -/
theorem getResults_rate_in_unit_interval_witness :
    (∀ r ∈ ([⟨JValue.str "App1", JValue.str "1.0", 100, 10, 2, 8⟩,
             ⟨JValue.str "App1", JValue.str "1.0", 150, 20, 5, 15⟩] : List StatusData),
      0 ≤ r.success_count ∧ r.success_count ≤ r.request_count) ∧
    (∀ e ∈ getResults (aggregate
        [⟨JValue.str "App1", JValue.str "1.0", 100, 10, 2, 8⟩,
         ⟨JValue.str "App1", JValue.str "1.0", 150, 20, 5, 15⟩]),
      0 ≤ e.success_rate ∧ e.success_rate ≤ 1 ∧
      (e.total_requests = 0 → e.success_rate = 0)) :=
  ⟨by decide, getResults_rate_in_unit_interval _ (by decide)⟩

end StatusPage

namespace StatusPage

theorem runSteps_agg (endpoints : List (String × HttpOutcome)) :
    ∀ st : AggState,
      (runSteps st endpoints).1 = (successRecords endpoints).foldl addStatus st := by
  induction endpoints with
  | nil => intro st; simp [runSteps, successRecords]
  | cons e rest ih =>
      intro st
      obtain ⟨server, oc⟩ := e
      cases hf : fetchStatus server oc with
      | ok sd =>
          simp [runSteps, fetchAndAggregate, hf, successRecords, Except.toOption, ih]
      | error ex =>
          simp [runSteps, fetchAndAggregate, hf, successRecords, Except.toOption, ih]

theorem runSteps_outcomes (endpoints : List (String × HttpOutcome)) :
    ∀ st : AggState,
      (runSteps st endpoints).2 = endpoints.map (fun e =>
        match fetchStatus e.1 e.2 with
        | .ok _ => RunOutcome.ingested e.1
        | .error ex => RunOutcome.logged e.1 ex) := by
  induction endpoints with
  | nil => intro st; simp [runSteps]
  | cons e rest ih =>
      intro st
      obtain ⟨server, oc⟩ := e
      cases hf : fetchStatus server oc with
      | ok sd => simp [runSteps, fetchAndAggregate, hf, ih]
      | error ex => simp [runSteps, fetchAndAggregate, hf, ih]

/-- C5: a failing endpoint is caught inside `_fetch_and_aggregate` and
never propagates: the run always completes (the processing functions are
total and return a final state rather than an exception), the final
aggregator state is exactly the fold of the successfully fetched records
— so every other endpoint's record is still ingested — and each endpoint
reaches exactly one terminal outcome: `ingested` when its fetch parsed,
`logged` with the caught exception otherwise. -/
theorem runTool_isolates_failures (endpoints : List (String × HttpOutcome)) :
    (runTool endpoints).1 = aggregate (successRecords endpoints) ∧
    (runTool endpoints).2 = endpoints.map (fun e =>
      match fetchStatus e.1 e.2 with
      | .ok _ => RunOutcome.ingested e.1
      | .error ex => RunOutcome.logged e.1 ex) ∧
    (runTool endpoints).2.length = endpoints.length :=
  ⟨runSteps_agg endpoints emptyAgg,
   runSteps_outcomes endpoints emptyAgg,
   by
    show (runSteps emptyAgg endpoints).2.length = endpoints.length
    rw [runSteps_outcomes endpoints emptyAgg]
    exact List.length_map _ _⟩

end StatusPage

namespace StatusPage

/-- C7: `_read_servers` returns exactly the lines that are non-blank
after stripping and do not begin with `#` after stripping, each
stripped, in input order (`readServersSpec` is that description, stated
from the specification); the empty input yields the empty list. -/
theorem readServers_eq_spec :
    (∀ lines : List String, readServers lines = readServersSpec lines) ∧
    readServers [] = [] := by
  refine ⟨?_, rfl⟩
  intro lines
  induction lines with
  | nil => rfl
  | cons line rest ih =>
      by_cases hc : (pyStrip line = "" || (pyStrip line).startsWith "#") = true
      · have h1 : readServers (line :: rest) = readServers rest := by
          simp [readServers, hc]
        have h2 : readServersSpec (line :: rest) = readServersSpec rest := by
          unfold readServersSpec
          rw [List.map_cons, List.filter_cons]
          simp only [hc]
          simp
        rw [h1, h2, ih]
      · have hc' : (pyStrip line = "" || (pyStrip line).startsWith "#") = false := by
          simpa using hc
        have h1 : readServers (line :: rest) = pyStrip line :: readServers rest := by
          simp [readServers, hc']
        have h2 : readServersSpec (line :: rest) = pyStrip line :: readServersSpec rest := by
          unfold readServersSpec
          rw [List.map_cons, List.filter_cons]
          simp only [hc']
          simp
        rw [h1, h2, ih]

end StatusPage

namespace StatusPage

/-- Counterexample to C3: a payload whose `Request_Count` is the string
`"-5"` is accepted by `from_json` (Python `int("-5")` succeeds), yielding
a record whose `request_count` is the negative integer `-5` — so
accepted inputs need not have non-negative counts, and inputs with
negative counts are not rejected. -/
theorem from_json_accepts_negative_count :
    StatusData.from_json
        [("Application", JValue.str "App1"), ("Version", JValue.str "1.0"),
         ("Uptime", JValue.int 100), ("Request_Count", JValue.str "-5"),
         ("Error_Count", JValue.int 0), ("Success_Count", JValue.int 0)]
      = .ok ⟨JValue.str "App1", JValue.str "1.0", 100, -5, 0, 0⟩ ∧
    ((-5 : Int) < 0) := by
  constructor
  · rfl
  · decide

/-- C3 as amended: the count fields of every record accepted by
`from_json` are exactly the Python `int(...)` coercions of the
corresponding payload fields — integers that may be negative, since the
code applies no sign check — and an input whose count field is missing
or fails the `int(...)` coercion is rejected (the contrapositive: an
accepted input had all three coercions succeed). -/
theorem from_json_counts_are_int_coercions (data : JObject) (sd : StatusData)
    (h : StatusData.from_json data = .ok sd) :
    (∃ v, getItem data "Request_Count" = .ok v ∧ pyInt v = .ok sd.request_count) ∧
    (∃ v, getItem data "Error_Count" = .ok v ∧ pyInt v = .ok sd.error_count) ∧
    (∃ v, getItem data "Success_Count" = .ok v ∧ pyInt v = .ok sd.success_count) := by
  have hp : parseStatusData data = .ok sd := by
    cases hps : parseStatusData data with
    | ok x =>
        rw [StatusData.from_json, hps] at h
        simpa [Except.mapError] using h
    | error e =>
        rw [StatusData.from_json, hps] at h
        simp [Except.mapError] at h
  rw [parseStatusData.eq_def] at hp
  split at hp
  next e h1 => cases hp
  next app h1 =>
  split at hp
  next e h2 => cases hp
  next ver h2 =>
  split at hp
  next e h3 => cases hp
  next vu h3 =>
  split at hp
  next e h4 => cases hp
  next up h4 =>
  split at hp
  next e h5 => cases hp
  next vr h5 =>
  split at hp
  next e h6 => cases hp
  next req h6 =>
  split at hp
  next e h7 => cases hp
  next ve h7 =>
  split at hp
  next e h8 => cases hp
  next err h8 =>
  split at hp
  next e h9 => cases hp
  next vs h9 =>
  split at hp
  next e h10 => cases hp
  next succ h10 =>
  obtain rfl : (⟨app, ver, up, req, err, succ⟩ : StatusData) = sd := by
    cases hp
    rfl
  exact ⟨⟨vr, h5, h6⟩, ⟨ve, h7, h8⟩, ⟨vs, h9, h10⟩⟩

/-- Witness for the amended C3 at a concrete accepted payload. -/
theorem from_json_counts_are_int_coercions_witness :
    StatusData.from_json
        [("Application", JValue.str "Cache1"), ("Version", JValue.str "1.001"),
         ("Uptime", JValue.int 123), ("Request_Count", JValue.str "100"),
         ("Error_Count", JValue.str "10"), ("Success_Count", JValue.str "90")]
      = .ok ⟨JValue.str "Cache1", JValue.str "1.001", 123, 100, 10, 90⟩ ∧
    (∃ v, getItem
        [("Application", JValue.str "Cache1"), ("Version", JValue.str "1.001"),
         ("Uptime", JValue.int 123), ("Request_Count", JValue.str "100"),
         ("Error_Count", JValue.str "10"), ("Success_Count", JValue.str "90")]
        "Request_Count" = .ok v ∧
      pyInt v = .ok (⟨JValue.str "Cache1", JValue.str "1.001", 123, 100, 10, 90⟩ :
        StatusData).request_count) :=
  ⟨by rfl, (from_json_counts_are_int_coercions _ _ (by rfl)).1⟩

end StatusPage

namespace StatusPage

/-- C9: `from_json` is asymmetric on fractional counts. With
`Request_Count` the JSON number `10.9` it succeeds and silently
truncates toward zero to `10` (Python `int(10.9)`), while the very same
value as the string `"10.9"` raises `ValueError`
(Python `int("10.9")`). -/
theorem from_json_fractional_count_asymmetry :
    StatusData.from_json
        [("Application", JValue.str "App1"), ("Version", JValue.str "1.0"),
         ("Uptime", JValue.int 100),
         ("Request_Count", JValue.num ⟨109, 10, by decide, by decide⟩),
         ("Error_Count", JValue.int 0), ("Success_Count", JValue.int 0)]
      = .ok ⟨JValue.str "App1", JValue.str "1.0", 100, 10, 0, 0⟩ ∧
    StatusData.from_json
        [("Application", JValue.str "App1"), ("Version", JValue.str "1.0"),
         ("Uptime", JValue.int 100),
         ("Request_Count", JValue.str "10.9"),
         ("Error_Count", JValue.int 0), ("Success_Count", JValue.int 0)]
      = .error (.valueError
          "Invalid status JSON structure: invalid literal for int() with base 10: '10.9'") ∧
    ratTrunc ⟨109, 10, by decide, by decide⟩ = 10 := by
  refine ⟨by rfl, by rfl, by decide⟩

end StatusPage

namespace StatusPage

/-- Counterexample to C4: failures of `fetch_status` are not a uniform
`FetchError` — the original exception is re-raised unchanged, so a
transport failure surfaces as the aiohttp connection error while a
missing payload field surfaces as `ValueError`, two distinct classes;
and the raised value is identical for two different servers, so it does
not itself carry the endpoint identity (that appears only in the logged
warning). -/
theorem fetch_status_errors_not_uniform :
    fetchStatus "serverA" .transportError = .error .clientConnectionError ∧
    fetchStatus "serverB" .transportError = .error .clientConnectionError ∧
    fetchStatus "serverA" (.response 200 (.json [])) =
      .error (.valueError "Invalid status JSON structure: 'Application'") ∧
    PyExc.clientConnectionError ≠
      PyExc.valueError "Invalid status JSON structure: 'Application'" := by
  refine ⟨by rfl, by rfl, by rfl, by decide⟩

/-- C4 as amended: `fetch_status` either returns the `StatusData`
obtained by fully parsing the JSON body of a sub-400 response — never a
partial or defaulted record — or raises; each failure class (transport
error, HTTP status ≥ 400, undecodable body, missing/invalid field)
re-raises its original exception unchanged, with the endpoint identity
appearing in the logged warning rather than in a uniform wrapper. -/
theorem fetch_status_ok_iff_full_parse (server : String) (outcome : HttpOutcome) :
    (∀ sd, fetchStatus server outcome = .ok sd ↔
      ∃ status data, outcome = .response status (.json data) ∧ status < 400 ∧
        StatusData.from_json data = .ok sd) ∧
    (outcome = .transportError →
      fetchStatus server outcome = .error .clientConnectionError) ∧
    (∀ status body, outcome = .response status body → 400 ≤ status →
      fetchStatus server outcome = .error (.clientResponseError status)) ∧
    (∀ status, outcome = .response status .malformed → status < 400 →
      fetchStatus server outcome = .error .contentTypeError) ∧
    (∀ status data, outcome = .response status (.json data) → status < 400 →
      fetchStatus server outcome = StatusData.from_json data) := by
  refine ⟨?_, ?_, ?_, ?_, ?_⟩
  · intro sd
    constructor
    · intro h
      cases outcome with
      | transportError => cases h
      | response status body =>
          by_cases hs : 400 ≤ status
          · simp [fetchStatus, hs] at h
          · cases body with
            | malformed => simp [fetchStatus, hs] at h
            | json data =>
                refine ⟨status, data, rfl, by omega, ?_⟩
                simpa [fetchStatus, hs] using h
    · rintro ⟨status, data, rfl, hlt, hparse⟩
      have hs : ¬ 400 ≤ status := by omega
      simpa [fetchStatus, hs] using hparse
  · rintro rfl
    rfl
  · rintro status body rfl hs
    simp [fetchStatus, hs]
  · rintro status rfl hs
    have hns : ¬ 400 ≤ status := by omega
    simp [fetchStatus, hns]
  · rintro status data rfl hs
    have hns : ¬ 400 ≤ status := by omega
    simp [fetchStatus, hns]

/-- Witness for the amended C4: a concrete 200 response with a valid
payload returns the fully parsed record. -/
theorem fetch_status_ok_iff_full_parse_witness :
    fetchStatus "serverA"
        (.response 200 (.json
          [("Application", JValue.str "App1"), ("Version", JValue.str "1.0"),
           ("Uptime", JValue.int 100), ("Request_Count", JValue.int 10),
           ("Error_Count", JValue.int 2), ("Success_Count", JValue.int 8)]))
      = .ok ⟨JValue.str "App1", JValue.str "1.0", 100, 10, 2, 8⟩ := by
  rw [(fetch_status_ok_iff_full_parse "serverA" _).2.2.2.2 200
    [("Application", JValue.str "App1"), ("Version", JValue.str "1.0"),
     ("Uptime", JValue.int 100), ("Request_Count", JValue.int 10),
     ("Error_Count", JValue.int 2), ("Success_Count", JValue.int 8)] rfl (by omega)]
  rfl

end StatusPage

namespace StatusPage

/-- Counterexample to C8: `Config.MAX_CONCURRENCY` applies no validation
at all — the environment value `"0"` is accepted as the limit `0`
(neither floored to `1` nor rejected), and `"-3"` is accepted as `-3`.
(In aiohttp, `TCPConnector(limit=0)` means unlimited connections.) -/
theorem max_concurrency_zero_not_rejected :
    maxConcurrency (some "0") = .ok 0 ∧
    ¬ (1 ≤ (0 : Int)) ∧
    maxConcurrency (some "-3") = .ok (-3) := by
  refine ⟨by rfl, by decide, by rfl⟩

/-- C8 as amended: `Config.MAX_CONCURRENCY` is exactly the Python
`int(...)` parse of the `MAX_CONCURRENCY` environment value (default
`"50"`, giving 50), passed through unchanged to
`aiohttp.TCPConnector(limit=...)` with no floor and no rejection of
zero or negative values; only a non-numeric value raises `ValueError`.
The in-flight connection bound itself is delegated to the aiohttp
connector (limit `0` meaning unlimited there). -/
theorem max_concurrency_is_unvalidated_parse :
    (∀ s n, parsePyIntStr s = some n → maxConcurrency (some s) = .ok n) ∧
    maxConcurrency none = .ok 50 ∧
    (∀ s, parsePyIntStr s = none → maxConcurrency (some s) = .error
      (.valueError ("invalid literal for int() with base 10: " ++ pyRepr s))) := by
  refine ⟨?_, by rfl, ?_⟩
  · intro s n h
    simp [maxConcurrency, h]
  · intro s h
    simp [maxConcurrency, h]

/-- Witness for the amended C8: the environment value `"-7"` parses and
is passed through as the limit `-7`. -/
theorem max_concurrency_is_unvalidated_parse_witness :
    parsePyIntStr "-7" = some (-7) ∧ maxConcurrency (some "-7") = .ok (-7) :=
  ⟨by rfl, max_concurrency_is_unvalidated_parse.1 "-7" (-7) (by rfl)⟩

end StatusPage

namespace StatusPage

theorem writeJsonData_store_extends (rs : List Nat) :
    ∀ store : Store, ∃ ext : Store, (writeJsonData store rs).1 = store ++ ext := by
  induction rs with
  | nil => intro store; exact ⟨[], by simp [writeJsonData]⟩
  | cons r rest ih =>
      intro store
      obtain ⟨ext, hext⟩ := ih (store ++
        [pySetItem (store.getD r []) "links" (.links (linkUrl (store.getD r [])))])
      exact ⟨_, by simpa [writeJsonData, List.append_assoc] using hext⟩

theorem writeJsonData_refs_fresh (rs : List Nat) :
    ∀ store : Store,
      (writeJsonData store rs).2.length = rs.length ∧
      ∀ r ∈ (writeJsonData store rs).2, store.length ≤ r := by
  induction rs with
  | nil => intro store; exact ⟨rfl, by simp [writeJsonData]⟩
  | cons r rest ih =>
      intro store
      obtain ⟨hlen, hge⟩ := ih (store ++
        [pySetItem (store.getD r []) "links" (.links (linkUrl (store.getD r [])))])
      constructor
      · simpa [writeJsonData] using hlen
      · intro x hx
        simp only [writeJsonData, List.mem_cons] at hx
        rcases hx with rfl | hx
        · exact le_refl _
        · have := hge x hx
          simp only [List.length_append, List.length_singleton] at this
          omega

/-- C10: the JSON-artifact phase of `ReportWriter.write` never mutates
its input: every dict object the results list referenced before the
call holds exactly the same entries afterwards (the heap is only
extended), and the `"links"` key is added only to the freshly allocated
shallow copies, whose references all lie beyond the original heap. -/
theorem writeJson_preserves_input_dicts (store : Store) (rs : List Nat) :
    (∀ i, i < store.length →
      (writeJsonData store rs).1.getD i [] = store.getD i []) ∧
    (writeJsonData store rs).2.length = rs.length ∧
    (∀ r ∈ (writeJsonData store rs).2, store.length ≤ r) := by
  refine ⟨?_, (writeJsonData_refs_fresh rs store).1, (writeJsonData_refs_fresh rs store).2⟩
  intro i hi
  obtain ⟨ext, hext⟩ := writeJsonData_store_extends rs store
  rw [hext]
  exact List.getD_append _ _ _ _ hi

/-- Witness for C10: a one-dict heap and a single result reference; the
original dict is untouched and the fresh reference is new. -/
theorem writeJson_preserves_input_dicts_witness :
    (writeJsonData [[("application", PyVal.prim (JValue.str "App1"))]] [0]).1.getD 0 []
      = [("application", PyVal.prim (JValue.str "App1"))] ∧
    (writeJsonData [[("application", PyVal.prim (JValue.str "App1"))]] [0]).2.length = 1 := by
  have h := writeJson_preserves_input_dicts
    [[("application", PyVal.prim (JValue.str "App1"))]] [0]
  exact ⟨h.1 0 (by decide), h.2.1⟩

end StatusPage
